import Mathlib

/-!
Verification of the BI_Storyteller survey-analysis core against its
natural-language specification.  The Python modules under `modules/` are
shallowly embedded: dictionaries become association lists (preserving
Python's insertion-order semantics), Python `None`/missing strings become
`Option String`, Python floats become `ℚ` (or `ℝ` where a square root is
taken), and code that can raise becomes `Except String`.
-/

/-- Python whitespace characters relevant to `str.strip` and `\s` (ASCII
subset; the survey data is ASCII). -/
def isPySpace (c : Char) : Bool :=
  c == ' ' || c == '\t' || c == '\n' || c == '\r' || c == '\x0b' || c == '\x0c'

/-- A regex word character (`\w`), ASCII subset. -/
def isWordChar (c : Char) : Bool :=
  c.isAlphanum || c == '_'

/-- `str.strip()` on the character list: drop whitespace from both ends. -/
def pyStripChars (l : List Char) : List Char :=
  List.rdropWhile isPySpace (l.dropWhile isPySpace)

/-- `re.sub(r"\s+", " ", s)`: replace every maximal whitespace run by a
single space.  The flag records whether the previous character was
whitespace, so the first character of each run becomes `' '` and the rest
of the run is dropped. -/
def collapseAux (prevSp : Bool) : List Char → List Char
  | [] => []
  | c :: cs =>
    if isPySpace c then
      if prevSp then collapseAux true cs else ' ' :: collapseAux true cs
    else c :: collapseAux false cs

def collapseChars (l : List Char) : List Char :=
  collapseAux false l

/-- The whitespace normalization of `_standardize_responses`:
`answer.strip()` followed by `re.sub(r"\s+", " ", answer)`. -/
def normChars (l : List Char) : List Char :=
  collapseChars (pyStripChars l)

def normalizeText (s : String) : String :=
  ⟨normChars s.data⟩

def lowerStr (s : String) : String :=
  ⟨s.data.map Char.toLower⟩

/-- Substring test (`sub in s` for Python strings). -/
def matchesAtChars : List Char → List Char → Bool
  | [], _ => true
  | _ :: _, [] => false
  | a :: as, b :: bs => a == b && matchesAtChars as bs

def hasSubAux (sub : List Char) : List Char → Bool
  | [] => matchesAtChars sub []
  | c :: cs => matchesAtChars sub (c :: cs) || hasSubAux sub cs

def strHasSub (s sub : String) : Bool :=
  hasSubAux sub.data s.data

/-- Case-insensitive literal match of `seg` (given lower-case) at the head
of the text; returns the rest of the text on success. -/
def matchSeg : List Char → List Char → Option (List Char)
  | [], rest => some rest
  | _ :: _, [] => none
  | p :: ps, c :: cs => if p == c.toLower then matchSeg ps cs else none

/-- Match the remaining literal segments of an alternative, with `\s*`
between consecutive segments.  Every segment in the rule table starts with
a non-space character, so `\s*` is matched by skipping the maximal
whitespace run. -/
def matchSegsAfter : List (List Char) → List Char → Option (List Char)
  | [], rest => some rest
  | seg :: more, rest =>
    match matchSeg seg (rest.dropWhile isPySpace) with
    | some r => matchSegsAfter more r
    | none => none

/-- Match one alternative (its segments joined by `\s*`) at the head of the
text. -/
def matchAlt : List (List Char) → List Char → Option (List Char)
  | [], rest => some rest
  | seg :: more, rest =>
    match matchSeg seg rest with
    | some r => matchSegsAfter more r
    | none => none

/-- Right word-boundary check (`\b` after the match). -/
def boundaryOkR : List Char → Bool
  | [] => true
  | c :: _ => !isWordChar c

/-- Left word-boundary check (`\b` before the match). -/
def boundaryOkL : Option Char → Bool
  | none => true
  | some c => !isWordChar c

def altAt (segs : List (List Char)) (s : List Char) : Bool :=
  match matchAlt segs s with
  | some rest => boundaryOkR rest
  | none => false

/-- `re.search` of `\b(alt)\b` over the text: try every start position. -/
def searchAux (segs : List (List Char)) (prev : Option Char) : List Char → Bool
  | [] => boundaryOkL prev && altAt segs []
  | c :: cs => (boundaryOkL prev && altAt segs (c :: cs)) || searchAux segs (some c) cs

/-- Does the case-insensitive regex `\b(a₁|a₂|…)\b` (each `aᵢ` a list of
literal segments joined by `\s*`) match anywhere in `s`? -/
def ruleHits (alts : List (List String)) (s : String) : Bool :=
  alts.any (fun alt => searchAux (alt.map String.data) none s.data)

/-- The ordered regex→replacement table of `_standardize_responses`
(source order; each pattern is `\b(...)\b` with `re.IGNORECASE`). -/
def standardizations : List (List (List String) × String) :=
  [ ([["18"], ["19"], ["20"], ["21"], ["22"], ["23"], ["24"], ["25"]], "18-25"),
    ([["26"], ["27"], ["28"], ["29"], ["30"], ["31"], ["32"], ["33"], ["34"], ["35"]], "26-35"),
    ([["yes"], ["yeah"], ["yep"], ["y"]], "Yes"),
    ([["no"], ["nope"], ["n"]], "No"),
    ([["very", "satisfied"], ["excellent"]], "Very Satisfied"),
    ([["satisfied"], ["good"]], "Satisfied"),
    ([["neutral"], ["okay"], ["ok"], ["average"]], "Neutral"),
    ([["dissatisfied"], ["poor"]], "Dissatisfied"),
    ([["very", "dissatisfied"], ["terrible"], ["awful"]], "Very Dissatisfied") ]

/-- The standardized form of one answer string: normalize whitespace, then
replace the whole value by the replacement of the first matching rule. -/
def standardizeText (s : String) : String :=
  let a := normalizeText s
  match standardizations.find? (fun rule => ruleHits rule.1 a) with
  | some rule => rule.2
  | none => a

/-! ## The record model (`ResponseRecord` / `AnswerEntry` of §3)

Python answer dicts use `.get` with defaults; the embedding keeps every
field, with the convention that an absent `category` / `question_type` key
is represented by the default the code substitutes (`"general"` /
`"unknown"`), and an absent or `None` answer by `none`. -/

structure AnswerEntry where
  question : String
  answer : Option String
  question_type : String
  category : String
  imputed : Bool
  standardized : Bool
deriving DecidableEq

structure ResponseRecord where
  response_id : String
  timestamp : String
  answers : List (String × AnswerEntry)
deriving DecidableEq

/-- Python truthiness test for a missing answer
(`answer_data.get('answer') is None or answer_data.get('answer') == ''`). -/
def pyMissing : Option String → Bool
  | none => true
  | some a => a == ""

/-- Generic insertion-ordered association-list lookup. -/
def assocFind {β : Type} (l : List (String × β)) (k : String) : Option β :=
  (l.find? (fun kv => kv.1 == k)).map (fun kv => kv.2)

/-- Insertion sort of an association list by key, mirroring Python
`sorted(d.items())` (keys in a dict are distinct, so stability is moot). -/
def insertByKey {β : Type} (p : String × β) : List (String × β) → List (String × β)
  | [] => [p]
  | q :: rest => if p.1 < q.1 then p :: q :: rest else q :: insertByKey p rest

def sortByKey {β : Type} : List (String × β) → List (String × β)
  | [] => []
  | p :: rest => insertByKey p (sortByKey rest)

/-! ## Stage 1: `_remove_duplicates` -/

/-- The fingerprint parts: for each answer (sorted by question id), if the
answer is truthy, `str(answer).strip().lower()`. -/
def fpParts (answers : List (String × AnswerEntry)) : List String :=
  (sortByKey answers).filterMap (fun qe =>
    match qe.2.answer with
    | none => none
    | some a => if a == "" then none else some ⟨(pyStripChars a.data).map Char.toLower⟩)

def fingerprint (r : ResponseRecord) : String :=
  String.intercalate "|" (fpParts r.answers)

def removeDupsAux (seen : List String) : List ResponseRecord → List ResponseRecord
  | [] => []
  | r :: rs =>
    let p := fingerprint r
    if seen.contains p then removeDupsAux seen rs
    else r :: removeDupsAux (p :: seen) rs

def removeDuplicates (data : List ResponseRecord) : List ResponseRecord :=
  removeDupsAux [] data

/-! ## Stage 2: `_analyze_missing_patterns` / `_impute_missing_value` /
`_handle_missing_values` -/

/-- One `question_stats[q_id]` entry. -/
structure QStats where
  total : Nat
  missing : Nat
  values : List (String × Nat)
  category : String
  question_type : String
deriving DecidableEq

/-- `Counter` increment: bump in place, or append a fresh key. -/
def bumpCount (k : String) : List (String × Nat) → List (String × Nat)
  | [] => [(k, 1)]
  | kv :: rest => if k = kv.1 then (kv.1, kv.2 + 1) :: rest else kv :: bumpCount k rest

def updateStats (st : QStats) (e : AnswerEntry) : QStats :=
  match e.answer with
  | none => { st with total := st.total + 1, missing := st.missing + 1 }
  | some a =>
    if a == "" then { st with total := st.total + 1, missing := st.missing + 1 }
    else { st with total := st.total + 1, values := bumpCount a st.values }

def updatePat (q : String) (e : AnswerEntry) :
    List (String × QStats) → List (String × QStats)
  | [] => [(q, updateStats ⟨0, 0, [], e.category, e.question_type⟩ e)]
  | p :: rest =>
    if q = p.1 then (p.1, updateStats p.2 e) :: rest
    else p :: updatePat q e rest

def analyzeMissingPatterns (data : List ResponseRecord) : List (String × QStats) :=
  data.foldl (fun pats r => r.answers.foldl (fun pats qe => updatePat qe.1 qe.2 pats) pats) []

/-- `Counter.most_common`: stable descending sort by count. -/
def insDesc (p : String × Nat) : List (String × Nat) → List (String × Nat)
  | [] => [p]
  | q :: rest => if q.2 < p.2 then p :: q :: rest else q :: insDesc p rest

def sortByCountDesc (c : List (String × Nat)) : List (String × Nat) :=
  c.foldl (fun acc p => insDesc p acc) []

def mostCommonList (n : Nat) (c : List (String × Nat)) : List (String × Nat) :=
  (sortByCountDesc c).take n

def mostCommonPair (c : List (String × Nat)) : Option (String × Nat) :=
  (sortByCountDesc c).head?

def mostCommonVal (c : List (String × Nat)) : Option String :=
  (mostCommonPair c).map (fun kv => kv.1)

def defaultResponses : List (String × String) :=
  [ ("feedback", "No specific feedback provided."),
    ("experience", "Limited experience with this topic."),
    ("motivation", "Standard considerations apply."),
    ("factors", "Multiple factors influence this decision."),
    ("additional", "No additional comments.") ]

/-- `_impute_missing_value`: scan the per-question stats in iteration
order, keep the first question sharing category and type that has any
recorded values, and impute from it. -/
def imputeMissingValue (e : AnswerEntry) (patterns : List (String × QStats)) :
    Option String :=
  match patterns.find? (fun p =>
      p.2.category == e.category && p.2.question_type == e.question_type &&
      !p.2.values.isEmpty) with
  | none => none
  | some p =>
    if e.question_type == "MCQ" then mostCommonVal p.2.values
    else if e.question_type == "Descriptive" then
      some ((assocFind defaultResponses e.category).getD "No response provided.")
    else none

def imputeEntry (patterns : List (String × QStats)) (e : AnswerEntry) : AnswerEntry :=
  if pyMissing e.answer then
    match imputeMissingValue e patterns with
    | some v => if v == "" then e else { e with answer := some v, imputed := true }
    | none => e
  else e

def handleMissingValues (data : List ResponseRecord) : List ResponseRecord :=
  let patterns := analyzeMissingPatterns data
  data.map (fun r =>
    { r with answers := r.answers.map (fun qe => (qe.1, imputeEntry patterns qe.2)) })

/-! ## Stage 3: `_standardize_responses` -/

def stdEntry (e : AnswerEntry) : AnswerEntry :=
  match e.answer with
  | none => e
  | some a =>
    if a == "" then e
    else
      let v := standardizeText a
      if v == a then e
      else { e with answer := some v, standardized := true }

def standardizeResponses (data : List ResponseRecord) : List ResponseRecord :=
  data.map (fun r => { r with answers := r.answers.map (fun qe => (qe.1, stdEntry qe.2)) })

/-! ## Stage 4: `_remove_outliers` -/

def sumNat (l : List Nat) : Nat := l.foldl (fun a b => a + b) 0

def distinctChars (s : String) : Nat := s.data.dedup.length

def isOutlier (r : ResponseRecord) : Bool :=
  let descLens : List Nat := r.answers.filterMap (fun qe =>
    if qe.2.question_type == "Descriptive" && !(pyMissing qe.2.answer) then
      some (qe.2.answer.getD "").length
    else none)
  let lenOutlier : Bool :=
    if descLens.isEmpty then false
    else
      let avg : ℚ := (sumNat descLens : ℚ) / (descLens.length : ℚ)
      decide (avg < 10) || decide (avg > 500)
  let texts : List String := r.answers.filterMap (fun qe =>
    match qe.2.answer with
    | none => none
    | some a => if a == "" then none else some (lowerStr a))
  let repeatJunk : Bool := texts.any (fun t =>
    t.length > 20 && decide ((distinctChars t : ℚ) / (t.length : ℚ) < 3 / 10))
  lenOutlier || repeatJunk

def removeOutliers (data : List ResponseRecord) : List ResponseRecord :=
  data.filter (fun r => !isOutlier r)

/-! ## Stage 5: `_balance_data` (demographic rebalancing)

`random.sample` is ambient randomness in the source; the pipeline is
parameterized by a `sampler`, assumed (in the theorems) to return some
sub-multiset of its input, which `random.sample` always does. -/

def demoTypeOf (question : String) : String :=
  let q := lowerStr question
  if strHasSub q "age" then "age"
  else if strHasSub q "gender" then "gender"
  else if strHasSub q "income" then "income"
  else if strHasSub q "education" then "education"
  else "other"

def bumpDemo (dt ans : String) :
    List (String × List (String × Nat)) → List (String × List (String × Nat))
  | [] => [(dt, [(ans, 1)])]
  | kc :: rest =>
    if dt = kc.1 then (kc.1, bumpCount ans kc.2) :: rest
    else kc :: bumpDemo dt ans rest

def analyzeDemographics (data : List ResponseRecord) :
    List (String × List (String × Nat)) :=
  data.foldl (fun acc r =>
    r.answers.foldl (fun acc qe =>
      if qe.2.category == "demographic" then
        bumpDemo (demoTypeOf qe.2.question) (qe.2.answer.getD "") acc
      else acc) acc) []

def sumCounts (c : List (String × Nat)) : Nat :=
  c.foldl (fun a kv => a + kv.2) 0

def calcTargetSizes (demographics : List (String × List (String × Nat))) :
    List (String × List (String × Nat)) :=
  demographics.filterMap (fun td =>
    let total := sumCounts td.2
    if total == 0 then none
    else
      let target := max 20 (total / (td.2.length * 2))
      some (td.1, td.2.map (fun kv => (kv.1, min target kv.2))))

/-- Dict assignment `d[k] = v` on an insertion-ordered association list. -/
def setAssoc : List (String × String) → String → String → List (String × String)
  | [], k, v => [(k, v)]
  | kv :: rest, k, v =>
    if k = kv.1 then (k, v) :: rest else kv :: setAssoc rest k v

def demoInfoOf (r : ResponseRecord) : List (String × String) :=
  r.answers.foldl (fun info qe =>
    if qe.2.category == "demographic" then
      let q := lowerStr qe.2.question
      if strHasSub q "age" then setAssoc info "age" (qe.2.answer.getD "")
      else if strHasSub q "gender" then setAssoc info "gender" (qe.2.answer.getD "")
      else if strHasSub q "income" then setAssoc info "income" (qe.2.answer.getD "")
      else info
    else info) []

def demoKey (r : ResponseRecord) : String :=
  String.intercalate "|" ((sortByKey (demoInfoOf r)).map (fun kv => kv.1 ++ ":" ++ kv.2))

def addToGroup (k : String) (r : ResponseRecord) :
    List (String × List ResponseRecord) → List (String × List ResponseRecord)
  | [] => [(k, [r])]
  | kg :: rest =>
    if k = kg.1 then (kg.1, kg.2 ++ [r]) :: rest
    else kg :: addToGroup k r rest

def groupByDemo (data : List ResponseRecord) : List (String × List ResponseRecord) :=
  data.foldl (fun gs r => addToGroup (demoKey r) r gs) []

def parseDemoKey (k : String) : List (String × String) :=
  if k == "" then []
  else (k.splitOn "|").foldl (fun info pair =>
    match pair.splitOn ":" with
    | [] => info
    | [_] => info
    | key :: restParts => setAssoc info key (String.intercalate ":" restParts)) []

def groupSampleSize (targets : List (String × List (String × Nat)))
    (info : List (String × String)) (glen : Nat) : Nat :=
  info.foldl (fun size kv =>
    match assocFind targets kv.1 with
    | some dist =>
      match assocFind dist kv.2 with
      | some tgt => min size tgt
      | none => size
    | none => size) glen

def sampleForBalance (sampler : Nat → List ResponseRecord → List ResponseRecord)
    (data : List ResponseRecord) (targets : List (String × List (String × Nat))) :
    List ResponseRecord :=
  ((groupByDemo data).map (fun kg =>
    let size := groupSampleSize targets (parseDemoKey kg.1) kg.2.length
    if size > 0 then sampler (min size kg.2.length) kg.2 else [])).flatten

def balanceData (sampler : Nat → List ResponseRecord → List ResponseRecord)
    (data : List ResponseRecord) : List ResponseRecord :=
  sampleForBalance sampler data (calcTargetSizes (analyzeDemographics data))

/-- `clean_and_balance`: the five-stage pipeline (the final quality-score
computation returns a number and does not alter the batch). -/
def cleanAndBalance (sampler : Nat → List ResponseRecord → List ResponseRecord)
    (raw : List ResponseRecord) : List ResponseRecord :=
  balanceData sampler (removeOutliers (standardizeResponses (handleMissingValues (removeDuplicates raw))))

/-- A concrete sampler (take the first `k`), used for closed evaluations. -/
def takeSampler (k : Nat) (l : List ResponseRecord) : List ResponseRecord :=
  l.take k

/-! ## EDA engine: `_extract_structured_data`, `_calculate_entropy`,
`_analyze_categorical_data` -/

structure QMeta where
  question : String
  type : String
  category : String
deriving DecidableEq

def appendStructured (q a : String) :
    List (String × List String) → List (String × List String)
  | [] => [(q, [a])]
  | ql :: rest =>
    if q = ql.1 then (ql.1, ql.2 ++ [a]) :: rest
    else ql :: appendStructured q a rest

def setMeta (q : String) (m : QMeta) :
    List (String × QMeta) → List (String × QMeta)
  | [] => [(q, m)]
  | qm :: rest => if q = qm.1 then (q, m) :: rest else qm :: setMeta q m rest

def extractStructured (data : List ResponseRecord) :
    List (String × List String) × List (String × QMeta) :=
  data.foldl (fun acc r =>
    r.answers.foldl (fun acc qe =>
      let a := qe.2.answer.getD ""
      if a == "" then acc
      else (appendStructured qe.1 a acc.1,
            setMeta qe.1 ⟨qe.2.question, qe.2.question_type, qe.2.category⟩ acc.2)) acc) ([], [])

/-- A Python number: `int` or `float`.  True division of ints produces a
float; `bit_length` exists only on `int`. -/
inductive PyNum where
  | intVal : Int → PyNum
  | floatVal : ℚ → PyNum
deriving DecidableEq

def pyBitLength : PyNum → Except String Nat
  | .intVal n => .ok (if n = 0 then 0 else n.natAbs.log2 + 1)
  | .floatVal _ => .error "AttributeError: float object has no attribute bit_length"

def pyDiv (a b : Nat) : PyNum := .floatVal ((a : ℚ) / (b : ℚ))

def pyNumToRat : PyNum → ℚ
  | .intVal n => (n : ℚ)
  | .floatVal q => q

/-- `_calculate_entropy`: `entropy -= p * (p.bit_length() - 1)` where
`p = count / total` is a float. -/
def entropyLoop (total : Nat) (ent : ℚ) : List (String × Nat) → Except String ℚ
  | [] => .ok ent
  | kv :: rest =>
    if kv.2 > 0 then
      match pyBitLength (pyDiv kv.2 total) with
      | .error e => .error e
      | .ok b => entropyLoop total (ent - pyNumToRat (pyDiv kv.2 total) * ((b : ℚ) - 1)) rest
    else entropyLoop total ent rest

def calcEntropy (counts : List (String × Nat)) (total : Nat) : Except String ℚ :=
  if total = 0 then .ok 0 else entropyLoop total 0 counts

def counterFromList (responses : List String) : List (String × Nat) :=
  responses.foldl (fun c a => bumpCount a c) []

structure DemoInsights where
  diversity_score : ℚ
  dominant_group : Option (String × Nat)
  representation_balance : Option (ℚ × Bool)
deriving DecidableEq

def listMaxQ : List ℚ → ℚ
  | [] => 0
  | x :: xs => xs.foldl max x

def listMinQ : List ℚ → ℚ
  | [] => 0
  | x :: xs => xs.foldl min x

def analyzeDemoDist (c : List (String × Nat)) : DemoInsights :=
  let total := sumCounts c
  let base : DemoInsights := ⟨(c.length : ℚ) / ((max total 1 : Nat) : ℚ), mostCommonPair c, none⟩
  if c.length > 1 then
    let percentages := c.map (fun kv => ((kv.2 : ℚ) / (total : ℚ)) * 100)
    let balance : ℚ := 1 - (listMaxQ percentages - listMinQ percentages) / 100
    { base with representation_balance := some (balance, decide (balance > 7 / 10)) }
  else base

def satisfactionScores : List (String × Nat) :=
  [ ("Very Satisfied", 5), ("Satisfied", 4), ("Neutral", 3),
    ("Dissatisfied", 2), ("Very Dissatisfied", 1),
    ("Excellent", 5), ("Good", 4), ("Average", 3),
    ("Poor", 2), ("Very Poor", 1) ]

def satScoreOf (resp : String) : Nat :=
  (assocFind satisfactionScores resp).getD 3

structure SatScore where
  average_score : ℚ
  satisfaction_percentage : ℚ
  total_responses : Nat
  distribution : List (String × Nat)
deriving DecidableEq

def calcSatScore (c : List (String × Nat)) : SatScore :=
  let total_score : Nat := c.foldl (fun acc kv => acc + satScoreOf kv.1 * kv.2) 0
  let total_responses := sumCounts c
  let positive : Nat := (c.filter (fun kv => satScoreOf kv.1 ≥ 4)).foldl (fun a kv => a + kv.2) 0
  ⟨(total_score : ℚ) / ((max total_responses 1 : Nat) : ℚ),
   ((positive : ℚ) / ((max total_responses 1 : Nat) : ℚ)) * 100,
   total_responses, c⟩

structure CatAnalysis where
  category : String
  distribution : List (String × Nat)
  percentages : List (String × ℚ)
  entropy : ℚ
  top_responses : List (String × Nat)
  demographic_insights : Option DemoInsights
  satisfaction_score : Option SatScore
deriving DecidableEq

/-- `_analyze_categorical_data`, with the entropy failure propagated. -/
def catLoop (meta : List (String × QMeta)) :
    List (String × List String) → Except String (List (String × CatAnalysis))
  | [] => .ok []
  | qr :: rest =>
    let m := (assocFind meta qr.1).getD ⟨"", "unknown", "general"⟩
    if m.type == "MCQ" then
      let counts := counterFromList qr.2
      let total := qr.2.length
      match calcEntropy counts total with
      | .error e => .error e
      | .ok ent =>
        match catLoop meta rest with
        | .error e => .error e
        | .ok l =>
          let analysis : CatAnalysis :=
            { category := m.category
              distribution := counts
              percentages := counts.map (fun kv => (kv.1, ((kv.2 : ℚ) / (total : ℚ)) * 100))
              entropy := ent
              top_responses := mostCommonList 5 counts
              demographic_insights :=
                if m.category == "demographic" then some (analyzeDemoDist counts) else none
              satisfaction_score :=
                if m.category == "satisfaction" || m.category == "rating" then
                  some (calcSatScore counts)
                else none }
          .ok ((qr.1, analysis) :: l)
    else catLoop meta rest

def analyzeCategoricalData (structured : List (String × List String))
    (meta : List (String × QMeta)) : Except String (List (String × CatAnalysis)) :=
  catLoop meta structured

/-! ## Sentiment engine: `_calculate_response_sentiment` -/

/-- `re.findall(r"\b\w+\b", text_lower)`: the maximal word-character runs,
accumulated in reverse in `cur` while a run is open. -/
def wordRunsAux (cur : List Char) : List Char → List (List Char)
  | [] => if cur.isEmpty then [] else [cur.reverse]
  | c :: cs =>
    if isWordChar c then wordRunsAux (c :: cur) cs
    else if cur.isEmpty then wordRunsAux [] cs
    else cur.reverse :: wordRunsAux [] cs

def wordRuns (l : List Char) : List (List Char) :=
  wordRunsAux [] l

def tokenizeWords (s : String) : List String :=
  (wordRuns (s.data.map Char.toLower)).map (fun l => ⟨l⟩)

def positiveWords : List String :=
  [ "excellent", "great", "good", "amazing", "fantastic", "wonderful", "perfect",
    "outstanding", "superb", "brilliant", "awesome", "love", "like", "enjoy",
    "satisfied", "happy", "pleased", "delighted", "impressed", "recommend",
    "helpful", "useful", "valuable", "effective", "efficient", "reliable",
    "quality", "professional", "friendly", "quick", "fast", "easy", "smooth",
    "convenient", "affordable", "reasonable", "worth", "benefit", "advantage" ]

def negativeWords : List String :=
  [ "terrible", "awful", "bad", "horrible", "disgusting", "hate", "dislike",
    "disappointing", "frustrated", "annoying", "useless", "worthless",
    "dissatisfied", "unhappy", "upset", "angry", "furious", "worst", "poor",
    "slow", "difficult", "hard", "complicated", "confusing", "expensive",
    "overpriced", "unreliable", "broken", "problem", "issue", "bug", "error",
    "fail", "failure", "waste", "regret", "sorry", "complain", "complaint" ]

def intensifiers : List (String × ℚ) :=
  [ ("very", 3/2), ("really", 7/5), ("extremely", 9/5), ("incredibly", 17/10),
    ("absolutely", 8/5), ("completely", 3/2), ("totally", 7/5), ("quite", 6/5),
    ("pretty", 11/10), ("fairly", 11/10), ("rather", 11/10), ("somewhat", 4/5),
    ("slightly", 7/10), ("a bit", 7/10), ("kind of", 3/5), ("sort of", 3/5) ]

def negators : List String :=
  [ "not", "no", "never", "nothing", "nobody", "nowhere", "neither",
    "none", "without", "lacking", "missing", "absent", "dont", "wont",
    "cant", "couldnt", "shouldnt", "wouldnt", "isnt", "arent" ]

def inNegators : Option String → Bool
  | none => false
  | some w => negators.contains w

def negatedFlag (p1 p2 : Option String) : Bool :=
  inNegators p1 || inNegators p2

def intensifierOf (p1 p2 : Option String) : ℚ :=
  match p1.bind (assocFind intensifiers) with
  | some v => v
  | none =>
    match p2.bind (assocFind intensifiers) with
    | some v => v
    | none => 1

structure WordAcc where
  score : ℚ
  pos : List String
  neg : List String

/-- The token loop of `_calculate_response_sentiment`: at each token, the
two preceding tokens are checked for a negator and an intensifier. -/
def sentLoop (p2 p1 : Option String) : List String → WordAcc → WordAcc
  | [], acc => acc
  | w :: ws, acc =>
    let isNeg := negatedFlag p1 p2
    let inten := intensifierOf p1 p2
    let acc :=
      if positiveWords.contains w then
        let sc : ℚ := if isNeg then -(1 * inten) else 1 * inten
        ⟨acc.score + sc, acc.pos ++ [w], acc.neg⟩
      else if negativeWords.contains w then
        let sc : ℚ := if isNeg then -(-1 * inten) else -1 * inten
        ⟨acc.score + sc, acc.pos, acc.neg ++ [w]⟩
      else acc
    sentLoop p1 (some w) ws acc

structure SentimentResult where
  score : ℚ
  label : String
  confidence : ℚ
  positive_words : List String
  negative_words : List String
deriving DecidableEq

def calcResponseSentiment (text : String) : SentimentResult :=
  let words := tokenizeWords text
  let acc := sentLoop none none words ⟨0, [], []⟩
  let wc := words.length
  let normalized : ℚ := if wc > 0 then acc.score / (wc : ℚ) else 0
  if normalized > 1/10 then
    ⟨normalized, "positive", min (|normalized| * 2) 1, acc.pos, acc.neg⟩
  else if normalized < -(1/10) then
    ⟨normalized, "negative", min (|normalized| * 2) 1, acc.pos, acc.neg⟩
  else
    ⟨normalized, "neutral", 1 - |normalized|, acc.pos, acc.neg⟩

/-! ## A/B engine: `_calculate_significance_simple`

Floats are modelled by `ℝ` here because the code takes a square root
(`** 0.5`, equal to `Real.sqrt` on the nonnegative arguments in scope).
The two distinct result dictionaries of the source become the two
constructors. -/

noncomputable def pooledVariance (n_a n_b : ℕ) (std_a std_b : ℝ) : ℝ :=
  (((n_a : ℝ) - 1) * std_a ^ 2 + ((n_b : ℝ) - 1) * std_b ^ 2) / ((n_a : ℝ) + (n_b : ℝ) - 2)

noncomputable def standardErrorAB (n_a n_b : ℕ) (std_a std_b : ℝ) : ℝ :=
  Real.sqrt (pooledVariance n_a n_b std_a std_b * (1 / (n_a : ℝ) + 1 / (n_b : ℝ)))

inductive SigResult where
  | zeroSE : SigResult
  | full : Prop → ℝ → ℝ → ℤ → SigResult

open Classical in
noncomputable def calcSignificanceSimple (mean_a mean_b : ℝ) (n_a n_b : ℕ)
    (std_a std_b : ℝ) : SigResult :=
  let se := standardErrorAB n_a n_b std_a std_b
  if se = 0 then .zeroSE
  else
    let t := |mean_a - mean_b| / se
    let df : ℤ := (n_a : ℤ) + (n_b : ℤ) - 2
    let crit : ℝ := if df > 30 then 2.0 else 2.5
    .full (t > crit) (max 0.01 (1 / (1 + t))) t df

def SigResult.sigProp : SigResult → Prop
  | .zeroSE => False
  | .full s _ _ _ => s

noncomputable def SigResult.pEst : SigResult → ℝ
  | .zeroSE => 1.0
  | .full _ p _ _ => p

noncomputable def SigResult.tStat : SigResult → ℝ
  | .zeroSE => 0
  | .full _ _ t _ => t

def SigResult.dof : SigResult → ℤ
  | .zeroSE => 0
  | .full _ _ _ d => d

/-! ## Predictive engine: `_make_simple_prediction`, `_predict_scenario` -/

structure PredRule where
  weight : ℚ
deriving DecidableEq

/-- The accumulation loop of `_make_simple_prediction`:
`(weighted_sum, total_weight)`. -/
def predictionSums (features : List (String × List ℚ)) (index : Nat)
    (rules : List (String × PredRule)) : ℚ × ℚ :=
  rules.foldl (fun acc fr =>
    match assocFind features fr.1 with
    | some vals =>
      if index < vals.length then
        (acc.1 + vals.getD index 0 * |fr.2.weight|, acc.2 + |fr.2.weight|)
      else acc
    | none => acc) (0, 0)

def makeSimplePrediction (features : List (String × List ℚ)) (index : Nat)
    (rules : List (String × PredRule)) : ℚ :=
  let s := predictionSums features index rules
  if s.2 = 0 then 3 else max 1 (min 5 (s.1 / s.2))

/-- The accumulation loop of `_predict_scenario` (weight 1.0 per feature). -/
def scenarioSums (scen : List (String × ℚ)) : ℚ × ℚ :=
  scen.foldl (fun acc fv => (acc.1 + fv.2 * 1, acc.2 + 1)) ((0 : ℚ), (0 : ℚ))

def predictScenario (scen : List (String × ℚ)) (target_var : String) : ℚ :=
  let s := scenarioSums scen
  if s.2 = 0 then 3 else max 1 (min 5 (s.1 / s.2))

/-! ## Theorems -/

/-- C9: every prediction produced by `_make_simple_prediction` and by
`_predict_scenario` lies in the closed interval [1, 5], for every feature
table, row index, rule set and scenario, and the degenerate
total-weight-zero case yields 3. -/
theorem predictions_clamped (features : List (String × List ℚ)) (index : Nat)
    (rules : List (String × PredRule)) (scen : List (String × ℚ)) (tv : String) :
    1 ≤ makeSimplePrediction features index rules ∧
    makeSimplePrediction features index rules ≤ 5 ∧
    1 ≤ predictScenario scen tv ∧
    predictScenario scen tv ≤ 5 ∧
    ((predictionSums features index rules).2 = 0 →
      makeSimplePrediction features index rules = 3) ∧
    ((scenarioSums scen).2 = 0 → predictScenario scen tv = 3) := by
  unfold makeSimplePrediction predictScenario
  by_cases h : (predictionSums features index rules).2 = 0 <;>
    by_cases h2 : (scenarioSums scen).2 = 0 <;>
      simp only [h, h2, if_pos, if_neg, if_true, if_false] <;>
        refine ⟨?_, ?_, ?_, ?_, ?_, ?_⟩ <;>
          first
            | norm_num
            | exact le_max_left 1 _
            | exact max_le (by norm_num) (le_trans (min_le_left 5 _) (by norm_num))
            | (intro hc; first | rfl | exact absurd hc h | exact absurd hc h2)

/-- C9 witness: the bounds and the degenerate case at concrete inputs. -/
theorem predictions_clamped_witness :
    makeSimplePrediction [] 0 [] = 3 ∧
    1 ≤ predictScenario [("f1", 1000)] "t" ∧ predictScenario [("f1", 1000)] "t" ≤ 5 :=
  ⟨(predictions_clamped [] 0 [] [("f1", 1000)] "t").2.2.2.2.1 rfl,
   (predictions_clamped [] 0 [] [("f1", 1000)] "t").2.2.1,
   (predictions_clamped [] 0 [] [("f1", 1000)] "t").2.2.2.1⟩

/-- The batch used to exhibit the EDA entropy failure: one record with one
answered MCQ question. -/
def edaBatch : List ResponseRecord :=
  [⟨"resp_1", "2024-01-01T00:00:00",
     [("q1", ⟨"How satisfied are you?", some "Yes", "MCQ", "general", false, false⟩)]⟩]

/-- C1: contrary to the recovery policy, `perform_eda` does not return
normally on a batch with an answered MCQ question: `_calculate_entropy`
computes `p = count / total` (a float) and calls `p.bit_length()`, which
raises `AttributeError` (floats have no `bit_length`), and no handler
catches it on the `_analyze_categorical_data` path. -/
theorem eda_entropy_attribute_error :
    analyzeCategoricalData (extractStructured edaBatch).1 (extractStructured edaBatch).2
      = .error "AttributeError: float object has no attribute bit_length" ∧
    calcEntropy [("Yes", 1)] 1
      = .error "AttributeError: float object has no attribute bit_length" :=
  ⟨rfl, rfl⟩

/-- C7: the sentiment label is `positive` exactly when the normalized
score exceeds 1/10, `negative` exactly when it is below -1/10, `neutral`
otherwise (both boundary values included), and the confidence is
`min(|score|·2, 1)` for non-neutral labels and `1 - |score|` for neutral. -/
theorem sentiment_label_boundaries (text : String) :
    ((calcResponseSentiment text).label = "positive" ↔
      (calcResponseSentiment text).score > 1/10) ∧
    ((calcResponseSentiment text).label = "negative" ↔
      (calcResponseSentiment text).score < -(1/10)) ∧
    ((calcResponseSentiment text).label = "neutral" ↔
      (-(1/10) ≤ (calcResponseSentiment text).score ∧
        (calcResponseSentiment text).score ≤ 1/10)) ∧
    ((calcResponseSentiment text).label ≠ "neutral" →
      (calcResponseSentiment text).confidence =
        min (|(calcResponseSentiment text).score| * 2) 1) ∧
    ((calcResponseSentiment text).label = "neutral" →
      (calcResponseSentiment text).confidence = 1 - |(calcResponseSentiment text).score|) := by
  obtain ⟨s, pos, neg, hr⟩ : ∃ (s : ℚ) (pos neg : List String),
      calcResponseSentiment text =
        if s > 1/10 then (⟨s, "positive", min (|s| * 2) 1, pos, neg⟩ : SentimentResult)
        else if s < -(1/10) then ⟨s, "negative", min (|s| * 2) 1, pos, neg⟩
        else ⟨s, "neutral", 1 - |s|, pos, neg⟩ := ⟨_, _, _, rfl⟩
  rw [hr]
  by_cases h1 : s > 1/10
  · rw [if_pos h1]
    refine ⟨iff_of_true rfl h1, ?_, ?_, fun _ => rfl, ?_⟩
    · show ("positive" = "negative") ↔ s < -(1/10)
      constructor
      · intro h; exact absurd h (by decide)
      · intro h; exact absurd h (by linarith)
    · show ("positive" = "neutral") ↔ _
      constructor
      · intro h; exact absurd h (by decide)
      · intro h; exact absurd h1 (by push_neg; exact h.2)
    · intro h; exact ((by decide : ("positive" : String) ≠ "neutral") h).elim
  · rw [if_neg h1]
    by_cases h2 : s < -(1/10)
    · rw [if_pos h2]
      refine ⟨?_, iff_of_true rfl h2, ?_, fun _ => rfl, ?_⟩
      · show ("negative" = "positive") ↔ s > 1/10
        constructor
        · intro h; exact absurd h (by decide)
        · intro h; exact absurd h h1
      · show ("negative" = "neutral") ↔ _
        constructor
        · intro h; exact absurd h (by decide)
        · intro h; exact absurd h2 (by push_neg; exact h.1)
      · intro h; exact ((by decide : ("negative" : String) ≠ "neutral") h).elim
    · rw [if_neg h2]
      push_neg at h1 h2
      refine ⟨?_, ?_, iff_of_true rfl ⟨h2, h1⟩, ?_, fun _ => rfl⟩
      · show ("neutral" = "positive") ↔ s > 1/10
        constructor
        · intro h; exact absurd h (by decide)
        · intro h; exact absurd h (by push_neg; exact h1)
      · show ("neutral" = "negative") ↔ s < -(1/10)
        constructor
        · intro h; exact absurd h (by decide)
        · intro h; exact absurd h (by push_neg; exact h2)
      · intro h; exact absurd rfl h

/-- C7 witness: the theorem applied at the text "good" (score 1, label
positive by the reverse direction of the first equivalence). -/
theorem sentiment_label_boundaries_witness :
    (calcResponseSentiment "good").label = "positive" := by
  refine (sentiment_label_boundaries "good").1.mpr ?_
  have hsc : (calcResponseSentiment "good").score = 1 := by
    unfold calcResponseSentiment
    have ht : tokenizeWords "good" = ["good"] := by decide
    have hc1 : positiveWords.contains "good" = true := by decide
    rw [ht]
    simp only [apply_ite SentimentResult.score]
    simp only [ite_self]
    simp [sentLoop, hc1, negatedFlag, inNegators, intensifierOf]
    rw [if_pos (show "good" ∈ positiveWords by decide)]
  rw [hsc]
  norm_num

/-! ## Idempotence analysis of Stage 3 -/

theorem collapseAux_idem (m : List Char) :
    ∀ b, collapseAux b (collapseAux b m) = collapseAux b m := by
  induction m with
  | nil => intro b; rfl
  | cons c cs ih =>
    intro b
    by_cases hc : isPySpace c
    · cases b with
      | true => simpa [collapseAux, hc] using ih true
      | false =>
        simp only [collapseAux, hc, if_true, if_false, Bool.false_eq_true]
        simpa [collapseAux, isPySpace] using ih true
    · simp only [collapseAux, hc, if_false, Bool.false_eq_true]
      simpa [collapseAux, hc] using ih false

theorem dropWhile_head_false (l : List Char) (c : Char) (cs : List Char)
    (h : l.dropWhile isPySpace = c :: cs) : isPySpace c = false := by
  induction l with
  | nil => simp at h
  | cons a l ih =>
    by_cases ha : isPySpace a
    · rw [List.dropWhile_cons_of_pos ha] at h; exact ih h
    · rw [List.dropWhile_cons_of_neg ha] at h
      cases h
      exact Bool.eq_false_iff.mpr ha

theorem strip_head_false (l : List Char) (c : Char) (cs : List Char)
    (h : pyStripChars l = c :: cs) : isPySpace c = false := by
  have hpre : pyStripChars l <+: l.dropWhile isPySpace :=
    List.rdropWhile_prefix isPySpace (l.dropWhile isPySpace)
  rw [h] at hpre
  obtain ⟨t, ht⟩ := hpre
  exact dropWhile_head_false l c (cs ++ t) (by rw [← ht]; rfl)

theorem strip_last_false (l : List Char) (h : pyStripChars l ≠ []) :
    isPySpace ((pyStripChars l).getLast h) = false := by
  exact Bool.eq_false_iff.mpr (List.rdropWhile_last_not isPySpace (l.dropWhile isPySpace) h)

theorem collapse_last (m : List Char) (x : Char) (hx : m.getLast? = some x)
    (hsp : isPySpace x = false) :
    ∀ b, ∃ y, (collapseAux b m).getLast? = some y ∧ isPySpace y = false := by
  induction m with
  | nil => simp at hx
  | cons c cs ih =>
    intro b
    cases cs with
    | nil =>
      simp only [List.getLast?_singleton, Option.some.injEq] at hx
      subst hx
      simp [collapseAux, hsp]
    | cons d ds =>
      have hx' : (d :: ds).getLast? = some x := by
        rw [← List.getLast?_cons_cons]; exact hx
      by_cases hc : isPySpace c
      · cases b with
        | true =>
          have hstep : collapseAux true (c :: d :: ds) = collapseAux true (d :: ds) := by
            simp [collapseAux, hc]
          rw [hstep]
          exact ih hx' true
        | false =>
          have hstep : collapseAux false (c :: d :: ds) = ' ' :: collapseAux true (d :: ds) := by
            simp [collapseAux, hc]
          rw [hstep]
          obtain ⟨y, hy, hysp⟩ := ih hx' true
          refine ⟨y, ?_, hysp⟩
          cases hz : collapseAux true (d :: ds) with
          | nil => rw [hz] at hy; simp at hy
          | cons z zs => rw [hz] at hy; rw [List.getLast?_cons_cons]; exact hy
      · have hstep : collapseAux b (c :: d :: ds) = c :: collapseAux false (d :: ds) := by
          cases b <;> simp [collapseAux, hc]
        rw [hstep]
        obtain ⟨y, hy, hysp⟩ := ih hx' false
        refine ⟨y, ?_, hysp⟩
        cases hz : collapseAux false (d :: ds) with
        | nil => rw [hz] at hy; simp at hy
        | cons z zs => rw [hz] at hy; rw [List.getLast?_cons_cons]; exact hy

theorem norm_no_lead (l : List Char) :
    (normChars l).dropWhile isPySpace = normChars l := by
  cases hm : pyStripChars l with
  | nil => simp [normChars, collapseChars, hm, collapseAux]
  | cons c cs =>
    have hc := strip_head_false l c cs hm
    simp [normChars, collapseChars, hm, collapseAux, hc, List.dropWhile_cons_of_neg,
      Bool.not_eq_true]

theorem norm_no_trail (l : List Char) :
    List.rdropWhile isPySpace (normChars l) = normChars l := by
  rw [List.rdropWhile_eq_self_iff]
  intro hl
  cases hm : pyStripChars l with
  | nil =>
    exfalso; apply hl
    simp [normChars, collapseChars, hm, collapseAux]
  | cons c cs =>
    have hne : pyStripChars l ≠ [] := by rw [hm]; simp
    have hlast := strip_last_false l hne
    have hsome : (pyStripChars l).getLast? = some ((pyStripChars l).getLast hne) :=
      List.getLast?_eq_getLast _ hne
    obtain ⟨y, hy, hysp⟩ :=
      collapse_last (pyStripChars l) _ hsome hlast false
    have : (normChars l).getLast? = some y := hy
    rw [List.getLast?_eq_getLast _ hl] at this
    intro hcon
    rw [Option.some.injEq] at this
    rw [this] at hcon
    rw [hysp] at hcon
    exact Bool.false_ne_true hcon

theorem normChars_idem (l : List Char) : normChars (normChars l) = normChars l := by
  show collapseChars (pyStripChars (normChars l)) = normChars l
  unfold pyStripChars
  rw [norm_no_lead, norm_no_trail]
  show collapseAux false (collapseAux false (pyStripChars l)) = normChars l
  rw [collapseAux_idem]
  rfl

theorem normalizeText_idem (s : String) :
    normalizeText (normalizeText s) = normalizeText s := by
  show (⟨normChars (normChars s.data)⟩ : String) = ⟨normChars s.data⟩
  rw [normChars_idem]

theorem standardizeText_eq (s : String) :
    standardizeText s =
      match standardizations.find? (fun rule => ruleHits rule.1 (normalizeText s)) with
      | some rule => rule.2
      | none => normalizeText s := rfl

theorem standardizeText_stable (a : String) (h : standardizeText a ≠ "Very Dissatisfied") :
    standardizeText (standardizeText a) = standardizeText a := by
  cases hf : standardizations.find? (fun rule => ruleHits rule.1 (normalizeText a)) with
  | none =>
    have h1 : standardizeText a = normalizeText a := by
      rw [standardizeText_eq, hf]
    rw [h1]
    rw [standardizeText_eq, normalizeText_idem, hf]
  | some rule =>
    have h1 : standardizeText a = rule.2 := by
      rw [standardizeText_eq, hf]
    have hmem : rule ∈ standardizations := List.mem_of_find?_eq_some hf
    rw [h1] at h ⊢
    simp only [standardizations, List.mem_cons, List.not_mem_nil, or_false] at hmem
    rcases hmem with rfl | rfl | rfl | rfl | rfl | rfl | rfl | rfl | rfl
    · decide
    · decide
    · decide
    · decide
    · decide
    · decide
    · decide
    · decide
    · exact absurd rfl h

theorem standardizeText_vd (a : String) (h : standardizeText a = "Very Dissatisfied") :
    standardizeText (standardizeText a) = "Dissatisfied" := by
  rw [h]; decide

/-- C3 (amended): Stage 3 is idempotent on every answer except one
standardized to "Very Dissatisfied": a second application of `stdEntry`
leaves the entry unchanged unless its value is "Very Dissatisfied", in
which case the second pass rewrites the value to "Dissatisfied" (the
`dissatisfied|poor` rule precedes the `very dissatisfied|terrible|awful`
rule and matches first). -/
theorem std_second_pass (e : AnswerEntry) :
    ((stdEntry e).answer ≠ some "Very Dissatisfied" → stdEntry (stdEntry e) = stdEntry e) ∧
    ((stdEntry e).answer = some "Very Dissatisfied" →
      stdEntry (stdEntry e) = { stdEntry e with answer := some "Dissatisfied" }) := by
  cases he : e.answer with
  | none =>
    have h0 : stdEntry e = e := by unfold stdEntry; rw [he]
    constructor
    · intro _; rw [h0]; exact h0
    · intro hv; rw [h0, he] at hv; exact Option.noConfusion hv
  | some a =>
    by_cases ha : a = ""
    · have h0 : stdEntry e = e := by
        unfold stdEntry; rw [he]; simp [ha]
      constructor
      · intro _; rw [h0]; exact h0
      · intro hv; rw [h0, he] at hv; simp [ha] at hv
    · by_cases hv : standardizeText a = a
      · have h0 : stdEntry e = e := by
          unfold stdEntry; rw [he]; simp [ha, hv]
        constructor
        · intro _; rw [h0]; exact h0
        · intro hvd
          rw [h0, he] at hvd
          rw [Option.some.injEq] at hvd
          subst hvd
          exact absurd hv (by decide)
      · have h0 : stdEntry e = { e with answer := some (standardizeText a), standardized := true } := by
          unfold stdEntry; rw [he]; simp [ha, hv]
        by_cases hvv : standardizeText a = "Very Dissatisfied"
        · constructor
          · intro hne
            exfalso; apply hne; rw [h0]; simp [hvv]
          · intro _
            rw [h0]
            have hst : standardizeText (standardizeText a) = "Dissatisfied" :=
              standardizeText_vd a hvv
            unfold stdEntry
            simp only [hvv, hst]
            rw [if_neg (by decide : ¬ (("Very Dissatisfied" : String) == "") = true)]
            rw [if_neg (by decide :
              ¬ ((standardizeText "Very Dissatisfied" == "Very Dissatisfied") = true))]
            rw [show standardizeText "Very Dissatisfied" = "Dissatisfied" by decide]
        · constructor
          · intro _
            rw [h0]
            by_cases hemp : standardizeText a = ""
            · unfold stdEntry; simp [hemp]
            · have hst : standardizeText (standardizeText a) = standardizeText a :=
                standardizeText_stable a hvv
              unfold stdEntry
              simp [hemp, hst]
          · intro hvd
            rw [h0] at hvd
            simp only [Option.some.injEq] at hvd
            exact absurd hvd hvv

/-- C3 witness: the second pass changes nothing on an entry standardized
to "Yes" (first conjunct of the theorem at a concrete entry). -/
theorem std_second_pass_witness :
    stdEntry (stdEntry ⟨"Q", some "yes", "MCQ", "general", false, false⟩) =
      stdEntry ⟨"Q", some "yes", "MCQ", "general", false, false⟩ :=
  (std_second_pass ⟨"Q", some "yes", "MCQ", "general", false, false⟩).1 (by decide)

/-- The batch whose single answer "terrible" breaks idempotence. -/
def terribleBatch : List ResponseRecord :=
  [⟨"r1", "t1", [("q1", ⟨"Q", some "terrible", "MCQ", "general", false, false⟩)]⟩]

/-- C3 counterexample: one pass of Stage 3 turns "terrible" into
"Very Dissatisfied"; a second pass changes the value again, to
"Dissatisfied", so running Stage 3 twice does change an answer value. -/
theorem std_not_idempotent_counterexample :
    standardizeResponses terribleBatch =
      [⟨"r1", "t1", [("q1", ⟨"Q", some "Very Dissatisfied", "MCQ", "general", false, true⟩)]⟩] ∧
    standardizeResponses (standardizeResponses terribleBatch) =
      [⟨"r1", "t1", [("q1", ⟨"Q", some "Dissatisfied", "MCQ", "general", false, true⟩)]⟩] ∧
    standardizeResponses (standardizeResponses terribleBatch) ≠
      standardizeResponses terribleBatch := by
  refine ⟨by decide, by decide, by decide⟩

/-- The batch whose single answer is the literal text "very dissatisfied". -/
def vdBatch : List ResponseRecord :=
  [⟨"r1", "t1", [("q1", ⟨"Q", some "very dissatisfied", "MCQ", "general", false, false⟩)]⟩]

/-- C2 counterexample: the answer "very dissatisfied" is standardized to
"Dissatisfied", not "Very Dissatisfied" — the `dissatisfied|poor` rule
precedes the `very dissatisfied|terrible|awful` rule in the table and
`\bdissatisfied\b` matches inside "very dissatisfied" first. -/
theorem very_dissatisfied_counterexample :
    standardizeResponses vdBatch =
      [⟨"r1", "t1", [("q1", ⟨"Q", some "Dissatisfied", "MCQ", "general", false, true⟩)]⟩] ∧
    ("Dissatisfied" : String) ≠ "Very Dissatisfied" :=
  ⟨by decide, by decide⟩

/-- C2 (amended): standardization tests the ordered rule list
case-insensitively and replaces the whole answer with the replacement of
the first matching rule; an answer matching the `terrible`/`awful` rule
and none of the eight earlier rules becomes exactly "Very Dissatisfied"
(whereas "very dissatisfied" itself is caught by the earlier
`dissatisfied|poor` rule, see the counterexample). -/
theorem awful_terrible_standardized (s : String)
    (h1 : (standardizations.take 8).find?
        (fun rule => ruleHits rule.1 (normalizeText s)) = none)
    (h2 : ruleHits [["very", "dissatisfied"], ["terrible"], ["awful"]] (normalizeText s) = true) :
    standardizeText s = "Very Dissatisfied" := by
  rw [standardizeText_eq]
  have hsplit : standardizations = standardizations.take 8 ++
      [([["very", "dissatisfied"], ["terrible"], ["awful"]], "Very Dissatisfied")] := by decide
  rw [hsplit, List.find?_append, h1]
  simp [List.find?, h2]

/-- C2 witness: the amended theorem at the text "It was awful". -/
theorem awful_terrible_standardized_witness :
    standardizeText "It was awful" = "Very Dissatisfied" :=
  awful_terrible_standardized "It was awful" (by decide) (by decide)

/-! ## Stage 1 dedup lemmas -/

open scoped List


theorem removeDupsAux_cons (seen : List String) (r : ResponseRecord) (rs : List ResponseRecord) :
    removeDupsAux seen (r :: rs) =
      if seen.contains (fingerprint r) then removeDupsAux seen rs
      else r :: removeDupsAux (fingerprint r :: seen) rs := rfl

theorem removeDupsAux_sublist (data : List ResponseRecord) :
    ∀ seen, removeDupsAux seen data <+ data := by
  induction data with
  | nil => intro seen; exact List.Sublist.refl []
  | cons r rs ih =>
    intro seen
    rw [removeDupsAux_cons]
    by_cases hc : seen.contains (fingerprint r)
    · rw [if_pos hc]; exact (ih seen).cons r
    · rw [if_neg hc]; exact (ih (fingerprint r :: seen)).cons₂ r

theorem removeDupsAux_distinct (data : List ResponseRecord) :
    ∀ seen, (removeDupsAux seen data).Pairwise (fun a b => fingerprint a ≠ fingerprint b) ∧
      ∀ r ∈ removeDupsAux seen data, fingerprint r ∉ seen := by
  induction data with
  | nil => intro seen; exact ⟨List.Pairwise.nil, by simp [removeDupsAux]⟩
  | cons r rs ih =>
    intro seen
    rw [removeDupsAux_cons]
    by_cases hc : seen.contains (fingerprint r)
    · rw [if_pos hc]; exact ih seen
    · rw [if_neg hc]
      have hcm : fingerprint r ∉ seen := by
        intro hmem
        exact hc (List.elem_eq_true_of_mem hmem)
      obtain ⟨hp, hni⟩ := ih (fingerprint r :: seen)
      refine ⟨List.Pairwise.cons ?_ hp, ?_⟩
      · intro b hb
        have := hni b hb
        simp only [List.mem_cons, not_or] at this
        exact fun hfp => this.1 hfp.symm
      · intro x hx
        rcases List.mem_cons.mp hx with rfl | hx'
        · exact hcm
        · have := hni x hx'
          simp only [List.mem_cons, not_or] at this
          exact this.2

theorem removeDupsAux_represents (data : List ResponseRecord) :
    ∀ seen r, r ∈ data → fingerprint r ∉ seen →
      ∃ r2 ∈ removeDupsAux seen data, fingerprint r2 = fingerprint r := by
  induction data with
  | nil => intro seen r hr; exact absurd hr (List.not_mem_nil r)
  | cons a rs ih =>
    intro seen r hr hni
    rw [removeDupsAux_cons]
    by_cases hc : seen.contains (fingerprint a)
    · rw [if_pos hc]
      rcases List.mem_cons.mp hr with rfl | hr'
      · exact absurd (List.mem_of_elem_eq_true hc) hni
      · exact ih seen r hr' hni
    · rw [if_neg hc]
      by_cases hfp : fingerprint r = fingerprint a
      · exact ⟨a, List.mem_cons_self a _, hfp.symm⟩
      · rcases List.mem_cons.mp hr with rfl | hr'
        · exact absurd rfl hfp
        · obtain ⟨r2, hr2, hfp2⟩ := ih (fingerprint a :: seen) r hr'
            (by simp only [List.mem_cons, not_or]; exact ⟨hfp, hni⟩)
          exact ⟨r2, List.mem_cons_of_mem a hr2, hfp2⟩

theorem countP_fp_le_one (l : List ResponseRecord)
    (hl : l.Pairwise (fun a b => fingerprint a ≠ fingerprint b)) (v : String) :
    l.countP (fun r => fingerprint r == v) ≤ 1 := by
  induction l with
  | nil => simp
  | cons a l ih =>
    rw [List.countP_cons]
    rcases List.pairwise_cons.mp hl with ⟨ha, hl'⟩
    by_cases hav : fingerprint a == v
    · have hz : l.countP (fun r => fingerprint r == v) = 0 := by
        rw [List.countP_eq_zero]
        intro b hb
        have hne := ha b hb
        simp only [beq_iff_eq] at hav ⊢
        rw [← hav]
        exact fun hbv => hne hbv.symm
      simp [hz, hav]
    · simp only [hav, if_false, Bool.false_eq_true]
      simpa using ih hl'

/-- C4 (amended): records with empty fingerprint content are deduplicated
against each other: at most one empty-fingerprint record survives Stage 1
(the first one seen does survive whenever one exists). -/
theorem empty_fp_dedup (data : List ResponseRecord) :
    (removeDuplicates data).countP (fun r => fingerprint r == "") ≤ 1 ∧
    (∀ r ∈ data, fingerprint r = "" →
      ∃ r2 ∈ removeDuplicates data, fingerprint r2 = "") := by
  constructor
  · exact countP_fp_le_one _ (removeDupsAux_distinct data []).1 ""
  · intro r hr hfp
    obtain ⟨r2, hr2, hfp2⟩ :=
      removeDupsAux_represents data [] r hr (List.not_mem_nil _)
    exact ⟨r2, hr2, by rw [hfp2, hfp]⟩

/-- C4 witness: the amended theorem applied to a concrete two-record
batch with no fingerprint content. -/
theorem empty_fp_dedup_witness :
    ∃ r2 ∈ removeDuplicates
      [⟨"a", "t1", ([] : List (String × AnswerEntry))⟩,
       ⟨"b", "t2", [("q1", ⟨"Q", none, "MCQ", "general", false, false⟩)]⟩],
      fingerprint r2 = "" :=
  (empty_fp_dedup _).2 ⟨"a", "t1", []⟩ (by decide) (by decide)

/-- C4 counterexample: a batch of two records with no fingerprint content
(one with no answers, one with a null answer): the second record is
dropped as a duplicate of the first, so not all of them survive Stage 1. -/
theorem empty_fp_counterexample :
    removeDuplicates
      [⟨"a", "t1", ([] : List (String × AnswerEntry))⟩,
       ⟨"b", "t2", [("q1", ⟨"Q", none, "MCQ", "general", false, false⟩)]⟩] =
      [⟨"a", "t1", []⟩] :=
  by decide

/-! ## Stage 5 sampling lemmas -/

theorem subperm_append_both {α : Type} {l1 l2 r1 r2 : List α}
    (h1 : l1 <+~ l2) (h2 : r1 <+~ r2) : l1 ++ r1 <+~ l2 ++ r2 := by
  obtain ⟨m, pm, sm⟩ := h1
  obtain ⟨n, pn, sn⟩ := h2
  exact ⟨m ++ n, pm.append pn, sm.append sn⟩

theorem takeSampler_subperm : ∀ k l, takeSampler k l <+~ l :=
  fun k l => (List.take_sublist k l).subperm

theorem addToGroup_flatten (k : String) (r : ResponseRecord) :
    ∀ gs : List (String × List ResponseRecord),
      ((addToGroup k r gs).map Prod.snd).flatten ~ (gs.map Prod.snd).flatten ++ [r] := by
  intro gs
  induction gs with
  | nil => simp [addToGroup]
  | cons kg rest ih =>
    by_cases h : k = kg.1
    · simp only [addToGroup, h, if_pos, List.map_cons, List.flatten_cons]
      rw [List.append_assoc, List.append_assoc]
      exact List.Perm.append_left kg.2 List.perm_append_comm
    · simp only [addToGroup, h, if_neg, not_false_iff, List.map_cons, List.flatten_cons]
      calc kg.2 ++ ((addToGroup k r rest).map Prod.snd).flatten
          ~ kg.2 ++ ((rest.map Prod.snd).flatten ++ [r]) := List.Perm.append_left kg.2 ih
        _ = (kg.2 ++ (rest.map Prod.snd).flatten) ++ [r] := (List.append_assoc _ _ _).symm

theorem groupFold_flatten (data : List ResponseRecord) :
    ∀ gs, (((data.foldl (fun gs r => addToGroup (demoKey r) r gs) gs).map Prod.snd).flatten)
      ~ (gs.map Prod.snd).flatten ++ data := by
  induction data with
  | nil => intro gs; simp
  | cons r rs ih =>
    intro gs
    simp only [List.foldl_cons]
    calc ((((r :: rs).drop 1).foldl (fun gs r => addToGroup (demoKey r) r gs)
            (addToGroup (demoKey r) r gs)).map Prod.snd).flatten
        ~ ((addToGroup (demoKey r) r gs).map Prod.snd).flatten ++ rs := ih _
      _ ~ ((gs.map Prod.snd).flatten ++ [r]) ++ rs :=
          List.Perm.append_right rs (addToGroup_flatten (demoKey r) r gs)
      _ = (gs.map Prod.snd).flatten ++ (r :: rs) := by
          rw [List.append_assoc]; rfl

theorem groupByDemo_flatten (data : List ResponseRecord) :
    ((groupByDemo data).map Prod.snd).flatten ~ data := by
  have := groupFold_flatten data []
  simpa [groupByDemo] using this

theorem sampleForBalance_subperm
    (sampler : Nat → List ResponseRecord → List ResponseRecord)
    (hs : ∀ k l, sampler k l <+~ l)
    (data : List ResponseRecord) (targets : List (String × List (String × Nat))) :
    sampleForBalance sampler data targets <+~ data := by
  have key : ∀ gs : List (String × List ResponseRecord),
      ((gs.map (fun kg =>
        if groupSampleSize targets (parseDemoKey kg.1) kg.2.length > 0 then
          sampler (min (groupSampleSize targets (parseDemoKey kg.1) kg.2.length) kg.2.length) kg.2
        else [])).flatten) <+~ (gs.map Prod.snd).flatten := by
    intro gs
    induction gs with
    | nil => exact List.Subperm.refl []
    | cons kg rest ih =>
      simp only [List.map_cons, List.flatten_cons]
      refine subperm_append_both ?_ ih
      by_cases h : groupSampleSize targets (parseDemoKey kg.1) kg.2.length > 0
      · rw [if_pos h]; exact hs _ _
      · rw [if_neg h]; exact List.nil_subperm
  exact (key (groupByDemo data)).trans (groupByDemo_flatten data).subperm

theorem balanceData_subperm
    (sampler : Nat → List ResponseRecord → List ResponseRecord)
    (hs : ∀ k l, sampler k l <+~ l) (data : List ResponseRecord) :
    balanceData sampler data <+~ data :=
  sampleForBalance_subperm sampler hs data _

/-! ## The cleaner's frame relation (C10) -/

/-- The fields of an answer entry the cleaner may NOT touch are equal;
only `answer`, `imputed` and `standardized` may differ. -/
def entryFrame (e0 e : AnswerEntry) : Prop :=
  e.question = e0.question ∧ e.question_type = e0.question_type ∧ e.category = e0.category

def recordFrame (r0 r : ResponseRecord) : Prop :=
  r.response_id = r0.response_id ∧ r.timestamp = r0.timestamp ∧
  List.Forall₂ (fun qe0 qe => qe.1 = qe0.1 ∧ entryFrame qe0.2 qe.2) r0.answers r.answers

theorem entryFrame_refl (e : AnswerEntry) : entryFrame e e := ⟨rfl, rfl, rfl⟩

theorem entryFrame_trans {a b c : AnswerEntry} (h1 : entryFrame a b) (h2 : entryFrame b c) :
    entryFrame a c :=
  ⟨h2.1.trans h1.1, h2.2.1.trans h1.2.1, h2.2.2.trans h1.2.2⟩

theorem recordFrame_refl (r : ResponseRecord) : recordFrame r r :=
  ⟨rfl, rfl, List.forall₂_same.mpr (fun qe _ => ⟨rfl, entryFrame_refl qe.2⟩)⟩

theorem forall2_chain {α β γ : Type} {R : α → β → Prop} {S : β → γ → Prop} {T : α → γ → Prop}
    (h : ∀ a b c, R a b → S b c → T a c) :
    ∀ {l1 : List α} {l2 : List β} {l3 : List γ},
      List.Forall₂ R l1 l2 → List.Forall₂ S l2 l3 → List.Forall₂ T l1 l3 := by
  intro l1 l2 l3 h12 h23
  induction h12 generalizing l3 with
  | nil => cases h23; exact List.Forall₂.nil
  | cons hab _ ih =>
    cases h23 with
    | cons hbc h23' => exact List.Forall₂.cons (h _ _ _ hab hbc) (ih h23')

theorem recordFrame_trans {a b c : ResponseRecord} (h1 : recordFrame a b) (h2 : recordFrame b c) :
    recordFrame a c := by
  refine ⟨h2.1.trans h1.1, h2.2.1.trans h1.2.1, ?_⟩
  exact forall2_chain
    (fun qe0 qe1 qe2 h12 h23 => ⟨h23.1.trans h12.1, entryFrame_trans h12.2 h23.2⟩)
    h1.2.2 h2.2.2

theorem imputeEntry_frame (patterns : List (String × QStats)) (e : AnswerEntry) :
    entryFrame e (imputeEntry patterns e) := by
  unfold imputeEntry
  split
  · split
    · split
      · exact entryFrame_refl e
      · exact ⟨rfl, rfl, rfl⟩
    · exact entryFrame_refl e
  · exact entryFrame_refl e

theorem stdEntry_frame (e : AnswerEntry) : entryFrame e (stdEntry e) := by
  unfold stdEntry
  cases he : e.answer with
  | none => exact entryFrame_refl e
  | some a =>
    show entryFrame e (if (a == "") = true then e
      else if (standardizeText a == a) = true then e
      else { e with answer := some (standardizeText a), standardized := true })
    by_cases ha : (a == "") = true
    · rw [if_pos ha]; exact entryFrame_refl e
    · rw [if_neg ha]
      by_cases hv : (standardizeText a == a) = true
      · rw [if_pos hv]; exact entryFrame_refl e
      · rw [if_neg hv]; exact ⟨rfl, rfl, rfl⟩

theorem mapAnswers_frame (r : ResponseRecord) (f : AnswerEntry → AnswerEntry)
    (hf : ∀ e, entryFrame e (f e)) :
    recordFrame r { r with answers := r.answers.map (fun qe => (qe.1, f qe.2)) } := by
  refine ⟨rfl, rfl, ?_⟩
  rw [List.forall₂_map_right_iff]
  exact List.forall₂_same.mpr (fun qe _ => ⟨rfl, hf qe.2⟩)

/-- C10: every record produced by the full cleaning pipeline is one of
the input records with `response_id` and `timestamp` unchanged, the same
question ids in the same order, and each answer entry differing at most
in its `answer`, `imputed` and `standardized` fields. -/
theorem cleaner_frame
    (sampler : Nat → List ResponseRecord → List ResponseRecord)
    (hs : ∀ k l, sampler k l <+~ l) (data : List ResponseRecord) :
    ∀ r ∈ cleanAndBalance sampler data, ∃ r0 ∈ data, recordFrame r0 r := by
  intro r hr
  have h1 : r ∈ removeOutliers (standardizeResponses (handleMissingValues (removeDuplicates data))) :=
    (balanceData_subperm sampler hs _).subset hr
  have h2 : r ∈ standardizeResponses (handleMissingValues (removeDuplicates data)) :=
    List.mem_of_mem_filter h1
  rcases List.mem_map.mp h2 with ⟨r1, hr1, rfl⟩
  rcases List.mem_map.mp hr1 with ⟨r0, hr0, rfl⟩
  have hd : r0 ∈ data := (removeDupsAux_sublist data []).subset hr0
  refine ⟨r0, hd, ?_⟩
  exact recordFrame_trans
    (mapAnswers_frame r0 _ (imputeEntry_frame (analyzeMissingPatterns (removeDuplicates data))))
    (mapAnswers_frame _ _ stdEntry_frame)

/-- A tiny batch for closed evaluations of the cleaning pipeline. -/
def frameBatch : List ResponseRecord :=
  [⟨"w1", "t0", [("q1", ⟨"Q", some "hello", "MCQ", "general", false, false⟩)]⟩]

/-- C10 witness: the theorem applied to the concrete one-record batch, a
concrete sampler, and the record the pipeline outputs. -/
theorem cleaner_frame_witness :
    ∃ r0 ∈ frameBatch,
      recordFrame r0 ⟨"w1", "t0", [("q1", ⟨"Q", some "hello", "MCQ", "general", false, false⟩)]⟩ :=
  cleaner_frame takeSampler takeSampler_subperm frameBatch
    ⟨"w1", "t0", [("q1", ⟨"Q", some "hello", "MCQ", "general", false, false⟩)]⟩
    (by decide)

/-- A batch whose two records have distinct fingerprints on entry
(`""` and `"x"`) but identical fingerprints after Stage 2 imputation
fills the null answer of the first record with the mode "x". -/
def collideBatch : List ResponseRecord :=
  [⟨"a", "t1", [("q1", ⟨"Q", none, "MCQ", "general", false, false⟩)]⟩,
   ⟨"b", "t2", [("q1", ⟨"Q", some "x", "MCQ", "general", false, false⟩)]⟩]

/-- C5 counterexample: the full pipeline keeps both records (so the
length bound holds here), yet the two surviving records share the
canonical fingerprint "x" — imputation after Stage 1 can re-collide
fingerprints, so the claimed invariant over the pipeline output fails. -/
theorem clean_fingerprint_collision :
    (cleanAndBalance takeSampler collideBatch).map fingerprint = ["x", "x"] ∧
    (cleanAndBalance takeSampler collideBatch).map (fun r => r.response_id) = ["a", "b"] := by
  refine ⟨by decide, by decide⟩

/-- C5 (amended): the cleaned batch is never longer than the input, and
the fingerprint-distinctness invariant holds where Stage 1 establishes
it: no two records kept by `_remove_duplicates` share a fingerprint
(later stages may rewrite answers and re-collide fingerprints, see the
counterexample). -/
theorem clean_length_and_dedup_distinct
    (sampler : Nat → List ResponseRecord → List ResponseRecord)
    (hs : ∀ k l, sampler k l <+~ l) (data : List ResponseRecord) :
    (cleanAndBalance sampler data).length ≤ data.length ∧
    (removeDuplicates data).Pairwise (fun a b => fingerprint a ≠ fingerprint b) := by
  constructor
  · have h1 : (cleanAndBalance sampler data).length ≤
        (removeOutliers (standardizeResponses (handleMissingValues (removeDuplicates data)))).length :=
      (balanceData_subperm sampler hs _).length_le
    have h2 : (removeOutliers (standardizeResponses (handleMissingValues (removeDuplicates data)))).length ≤
        (standardizeResponses (handleMissingValues (removeDuplicates data))).length :=
      (List.filter_sublist _).length_le
    have h3 : (standardizeResponses (handleMissingValues (removeDuplicates data))).length =
        (removeDuplicates data).length := by
      simp [standardizeResponses, handleMissingValues]
    have h4 : (removeDuplicates data).length ≤ data.length :=
      (removeDupsAux_sublist data []).length_le
    omega
  · exact (removeDupsAux_distinct data []).1

/-- C5 witness: the amended theorem at a concrete sampler and batch. -/
theorem clean_length_and_dedup_distinct_witness :
    (cleanAndBalance takeSampler collideBatch).length ≤ collideBatch.length ∧
    (removeDuplicates collideBatch).Pairwise (fun a b => fingerprint a ≠ fingerprint b) :=
  clean_length_and_dedup_distinct takeSampler takeSampler_subperm collideBatch

/-! ## Stage 2 imputation analysis (C6) -/

/-- Pooled counter merge, for the spec-side reading of the claim. -/
def bumpCountBy (k : String) (n : Nat) : List (String × Nat) → List (String × Nat)
  | [] => [(k, n)]
  | kv :: rest => if k = kv.1 then (kv.1, kv.2 + n) :: rest else kv :: bumpCountBy k n rest

/-- The claim's reading of Stage 2 imputation (for comparison with the
code): the most frequent non-null answer pooled over ALL questions
sharing the category and question type. -/
def specPooledMode (cat ty : String) (patterns : List (String × QStats)) : Option String :=
  mostCommonVal
    (((patterns.filter (fun p => p.2.category == cat && p.2.question_type == ty)).map
        (fun p => p.2.values)).flatten.foldl (fun acc kv => bumpCountBy kv.1 kv.2 acc) [])

/-- The batch separating the code's first-matching-question imputation
from the claim's pooled imputation: q1 has one "A", q2 has two "B"s, q3
is missing. -/
def imputeBatch : List ResponseRecord :=
  [⟨"r1", "t", [("q1", ⟨"Q1", some "A", "MCQ", "general", false, false⟩)]⟩,
   ⟨"r2", "t", [("q2", ⟨"Q2", some "B", "MCQ", "general", false, false⟩)]⟩,
   ⟨"r3", "t", [("q2", ⟨"Q2", some "B", "MCQ", "general", false, false⟩)]⟩,
   ⟨"r4", "t", [("q3", ⟨"Q3", none, "MCQ", "general", false, false⟩)]⟩]

/-- C6 counterexample: the code imputes "A" (the mode of the FIRST
question q1 sharing category and type), while the most frequent answer
pooled across every matching question is "B". -/
theorem impute_not_pooled_counterexample :
    (handleMissingValues imputeBatch).map (fun r => r.answers.map (fun qe => qe.2.answer)) =
      [[some "A"], [some "B"], [some "B"], [some "A"]] ∧
    specPooledMode "general" "MCQ" (analyzeMissingPatterns imputeBatch) = some "B" ∧
    ("A" : String) ≠ "B" :=
  ⟨by decide, by decide, by decide⟩

theorem bumpCount_keys (k : String) (hk : k ≠ "") :
    ∀ c, (∀ kv ∈ c, kv.1 ≠ "") → ∀ kv ∈ bumpCount k c, kv.1 ≠ "" := by
  intro c
  induction c with
  | nil => intro _ kv hkv; simp only [bumpCount, List.mem_singleton] at hkv; subst hkv; exact hk
  | cons a rest ih =>
    intro hc kv hkv
    by_cases h : k = a.1
    · simp only [bumpCount, h, if_pos] at hkv
      rcases List.mem_cons.mp hkv with rfl | hkv'
      · exact hc a (List.mem_cons_self a rest)
      · exact hc kv (List.mem_cons_of_mem a hkv')
    · simp only [bumpCount, h, if_neg, not_false_iff] at hkv
      rcases List.mem_cons.mp hkv with rfl | hkv'
      · exact hc kv (List.mem_cons_self kv rest)
      · exact ih (fun x hx => hc x (List.mem_cons_of_mem a hx)) kv hkv'

theorem updateStats_keys (st : QStats) (e : AnswerEntry)
    (hst : ∀ kv ∈ st.values, kv.1 ≠ "") :
    ∀ kv ∈ (updateStats st e).values, kv.1 ≠ "" := by
  unfold updateStats
  cases he : e.answer with
  | none => exact hst
  | some a =>
    show ∀ kv ∈ (if (a == "") = true then
        ({ st with total := st.total + 1, missing := st.missing + 1 } : QStats)
      else { st with total := st.total + 1, values := bumpCount a st.values }).values,
      kv.1 ≠ ""
    by_cases ha : (a == "") = true
    · rw [if_pos ha]; exact hst
    · rw [if_neg ha]
      exact bumpCount_keys a (by simpa using ha) st.values hst

theorem updatePat_keys (q : String) (e : AnswerEntry) :
    ∀ pats, (∀ p ∈ pats, ∀ kv ∈ p.2.values, kv.1 ≠ "") →
      ∀ p ∈ updatePat q e pats, ∀ kv ∈ p.2.values, kv.1 ≠ "" := by
  intro pats
  induction pats with
  | nil =>
    intro _ p hp
    simp only [updatePat, List.mem_singleton] at hp
    subst hp
    exact updateStats_keys _ e (by simp)
  | cons a rest ih =>
    intro hall p hp
    by_cases h : q = a.1
    · simp only [updatePat, h, if_pos] at hp
      rcases List.mem_cons.mp hp with rfl | hp'
      · exact updateStats_keys a.2 e (hall a (List.mem_cons_self a rest))
      · exact hall p (List.mem_cons_of_mem a hp')
    · simp only [updatePat, h, if_neg, not_false_iff] at hp
      rcases List.mem_cons.mp hp with rfl | hp'
      · exact hall p (List.mem_cons_self p rest)
      · exact ih (fun x hx => hall x (List.mem_cons_of_mem a hx)) p hp'

theorem answersFold_keys (ans : List (String × AnswerEntry)) :
    ∀ pats, (∀ p ∈ pats, ∀ kv ∈ p.2.values, kv.1 ≠ "") →
      ∀ p ∈ ans.foldl (fun pats qe => updatePat qe.1 qe.2 pats) pats,
        ∀ kv ∈ p.2.values, kv.1 ≠ "" := by
  induction ans with
  | nil => intro pats h; exact h
  | cons qe rest ih =>
    intro pats h
    exact ih _ (updatePat_keys qe.1 qe.2 pats h)

theorem analyzeMissingPatterns_keys (data : List ResponseRecord) :
    ∀ p ∈ analyzeMissingPatterns data, ∀ kv ∈ p.2.values, kv.1 ≠ "" := by
  unfold analyzeMissingPatterns
  suffices h : ∀ pats, (∀ p ∈ pats, ∀ kv ∈ p.2.values, kv.1 ≠ "") →
      ∀ p ∈ data.foldl (fun pats r => r.answers.foldl
        (fun pats qe => updatePat qe.1 qe.2 pats) pats) pats,
        ∀ kv ∈ p.2.values, kv.1 ≠ "" by
    exact h [] (by simp)
  induction data with
  | nil => intro pats h; exact h
  | cons r rest ih =>
    intro pats h
    exact ih _ (answersFold_keys r.answers pats h)

theorem insDesc_mem (p kv : String × Nat) :
    ∀ acc, kv ∈ insDesc p acc → kv = p ∨ kv ∈ acc := by
  intro acc
  induction acc with
  | nil => intro h; simp [insDesc] at h; exact Or.inl h
  | cons a rest ih =>
    intro h
    by_cases hlt : a.2 < p.2
    · simp only [insDesc, hlt, if_pos] at h
      rcases List.mem_cons.mp h with rfl | h'
      · exact Or.inl rfl
      · exact Or.inr h'
    · simp only [insDesc, hlt, if_neg, not_false_iff] at h
      rcases List.mem_cons.mp h with rfl | h'
      · exact Or.inr (List.mem_cons_self kv rest)
      · rcases ih h' with h2 | h2
        · exact Or.inl h2
        · exact Or.inr (List.mem_cons_of_mem a h2)

theorem sortByCountDesc_mem (c : List (String × Nat)) (kv : String × Nat) :
    kv ∈ sortByCountDesc c → kv ∈ c := by
  unfold sortByCountDesc
  suffices h : ∀ acc, kv ∈ c.foldl (fun acc p => insDesc p acc) acc → kv ∈ acc ∨ kv ∈ c by
    intro hm
    rcases h [] hm with h2 | h2
    · exact absurd h2 (List.not_mem_nil kv)
    · exact h2
  induction c with
  | nil => intro acc h; exact Or.inl h
  | cons p rest ih =>
    intro acc h
    rcases ih (insDesc p acc) h with h2 | h2
    · rcases insDesc_mem p kv acc h2 with rfl | h3
      · exact Or.inr (List.mem_cons_self kv rest)
      · exact Or.inl h3
    · exact Or.inr (List.mem_cons_of_mem p h2)

theorem insDesc_length (p : String × Nat) :
    ∀ acc, (insDesc p acc).length = acc.length + 1 := by
  intro acc
  induction acc with
  | nil => rfl
  | cons a rest ih =>
    by_cases hlt : a.2 < p.2
    · simp [insDesc, hlt]
    · simp [insDesc, hlt, ih]

theorem sortByCountDesc_length (c : List (String × Nat)) :
    (sortByCountDesc c).length = c.length := by
  unfold sortByCountDesc
  suffices h : ∀ acc, (c.foldl (fun acc p => insDesc p acc) acc).length = acc.length + c.length by
    simpa using h []
  induction c with
  | nil => intro acc; simp
  | cons p rest ih =>
    intro acc
    simp only [List.foldl_cons]
    rw [ih (insDesc p acc), insDesc_length]
    simp [Nat.add_assoc, Nat.add_comm 1 rest.length]

theorem mostCommonVal_isSome (c : List (String × Nat)) (hc : c ≠ []) :
    ∃ v, mostCommonVal c = some v := by
  unfold mostCommonVal mostCommonPair
  cases hs : sortByCountDesc c with
  | nil =>
    exfalso
    have := sortByCountDesc_length c
    rw [hs] at this
    exact hc (List.length_eq_zero.mp this.symm)
  | cons a rest => exact ⟨a.1, rfl⟩

theorem mostCommonVal_mem (c : List (String × Nat)) (v : String)
    (h : mostCommonVal c = some v) : ∃ n, (v, n) ∈ c := by
  unfold mostCommonVal mostCommonPair at h
  cases hs : sortByCountDesc c with
  | nil => rw [hs] at h; simp at h
  | cons a rest =>
    rw [hs] at h
    simp at h
    refine ⟨a.2, ?_⟩
    have ha : a ∈ sortByCountDesc c := by rw [hs]; exact List.mem_cons_self a rest
    have hmem := sortByCountDesc_mem c a ha
    have hva : (v, a.2) = a := by rw [← h]
    rw [hva]
    exact hmem

/-- C6 (amended): Stage 2 computes the per-question stats over the whole
batch and, for each null/empty MCQ answer, substitutes the mode of the
FIRST question (in stats iteration order) that shares the answer's
category and question type and has any recorded non-null answers (ties
broken by first-recorded value); if no such question exists, the answer
is left unchanged (null). -/
theorem impute_first_match (data : List ResponseRecord) :
    handleMissingValues data = data.map (fun r =>
      { r with answers := r.answers.map (fun qe =>
          (qe.1, imputeEntry (analyzeMissingPatterns data) qe.2)) }) ∧
    ∀ e : AnswerEntry, pyMissing e.answer = true → e.question_type = "MCQ" →
      (imputeEntry (analyzeMissingPatterns data) e).answer =
        match (analyzeMissingPatterns data).find? (fun p =>
            p.2.category == e.category && p.2.question_type == "MCQ" &&
            !p.2.values.isEmpty) with
        | some p => mostCommonVal p.2.values
        | none => e.answer := by
  constructor
  · rfl
  · intro e hm hty
    cases hfind : (analyzeMissingPatterns data).find? (fun p =>
        p.2.category == e.category && p.2.question_type == "MCQ" && !p.2.values.isEmpty) with
    | none =>
      have himp : imputeMissingValue e (analyzeMissingPatterns data) = none := by
        unfold imputeMissingValue
        rw [hty, hfind]
      show (imputeEntry (analyzeMissingPatterns data) e).answer = e.answer
      unfold imputeEntry
      rw [if_pos hm, himp]
    | some p =>
      have hpred := List.find?_some hfind
      have hne : p.2.values ≠ [] := by
        simp only [Bool.and_eq_true, Bool.not_eq_true'] at hpred
        exact fun hnil => by simp [hnil] at hpred
      obtain ⟨v, hv⟩ := mostCommonVal_isSome p.2.values hne
      obtain ⟨n, hvn⟩ := mostCommonVal_mem p.2.values v hv
      have hvne : v ≠ "" :=
        analyzeMissingPatterns_keys data p (List.mem_of_find?_eq_some hfind) (v, n) hvn
      have himp : imputeMissingValue e (analyzeMissingPatterns data) = mostCommonVal p.2.values := by
        unfold imputeMissingValue
        rw [hty, hfind]
        show (if ("MCQ" == "MCQ") = true then mostCommonVal p.2.values
          else if ("MCQ" == "Descriptive") = true then
            some ((assocFind defaultResponses e.category).getD "No response provided.")
          else none) = mostCommonVal p.2.values
        simp
      show (imputeEntry (analyzeMissingPatterns data) e).answer = mostCommonVal p.2.values
      unfold imputeEntry
      rw [if_pos hm, himp, hv]
      show (if (v == "") = true then e
        else { e with answer := some v, imputed := true }).answer = some v
      rw [if_neg (by simpa using hvne)]
  
/-- C6 witness: the amended theorem's characterization evaluated on the
concrete batch: the imputed value comes from q1 (the first matching
question), i.e. "A". -/
theorem impute_first_match_witness :
    (imputeEntry (analyzeMissingPatterns imputeBatch)
        ⟨"Q3", none, "MCQ", "general", false, false⟩).answer =
      match (analyzeMissingPatterns imputeBatch).find? (fun p =>
          p.2.category == "general" && p.2.question_type == "MCQ" &&
          !p.2.values.isEmpty) with
      | some p => mostCommonVal p.2.values
      | none => none :=
  (impute_first_match imputeBatch).2 ⟨"Q3", none, "MCQ", "general", false, false⟩
    (by decide) (by decide)

/-! ## A/B significance (C8) -/

open Classical in
theorem calcSig_eq (ma mb : ℝ) (na nb : ℕ) (sa sb : ℝ) :
    calcSignificanceSimple ma mb na nb sa sb =
      if standardErrorAB na nb sa sb = 0 then .zeroSE
      else .full
        (|ma - mb| / standardErrorAB na nb sa sb >
          (if ((na : ℤ) + (nb : ℤ) - 2) > 30 then (2.0 : ℝ) else 2.5))
        (max 0.01 (1 / (1 + |ma - mb| / standardErrorAB na nb sa sb)))
        (|ma - mb| / standardErrorAB na nb sa sb)
        ((na : ℤ) + (nb : ℤ) - 2) := rfl

theorem pooledVariance_concrete : pooledVariance 40 40 0.5 0.5 = 0.25 := by
  unfold pooledVariance
  norm_num

theorem standardErrorAB_concrete :
    standardErrorAB 40 40 0.5 0.5 = Real.sqrt 0.0125 := by
  unfold standardErrorAB
  rw [pooledVariance_concrete]
  norm_num

theorem standardErrorAB_concrete_ne :
    standardErrorAB 40 40 0.5 0.5 ≠ 0 := by
  rw [standardErrorAB_concrete]
  exact Real.sqrt_ne_zero'.mpr (by norm_num)

/-- C8: for all means, sample sizes and stdevs for which the computation
is defined (degrees of freedom nonzero, so the pooled-variance division
is legal, and a nonzero pooled standard error), `is_significant` holds
exactly when the t-statistic `|mean_a - mean_b| / SE` exceeds 2.0 for
df > 30 and 2.5 otherwise, and the p-value estimate is
`max(0.01, 1/(1+t))`; at the spec's concrete inputs (4.5, 3.0, n=40,
stdev=0.5) the pooled variance is 0.25, the standard error lies in
(0.1118, 0.1119), the t-statistic lies in (13.41, 13.42), and the result
is significant. -/
theorem ab_significance (mean_a mean_b std_a std_b : ℝ) (n_a n_b : ℕ)
    (hna : 0 < n_a) (hnb : 0 < n_b) (hdf : n_a + n_b ≠ 2)
    (hse : standardErrorAB n_a n_b std_a std_b ≠ 0) :
    (calcSignificanceSimple mean_a mean_b n_a n_b std_a std_b).tStat =
      |mean_a - mean_b| / standardErrorAB n_a n_b std_a std_b ∧
    ((calcSignificanceSimple mean_a mean_b n_a n_b std_a std_b).sigProp ↔
      |mean_a - mean_b| / standardErrorAB n_a n_b std_a std_b >
        (if ((n_a : ℤ) + (n_b : ℤ) - 2) > 30 then (2.0 : ℝ) else 2.5)) ∧
    (calcSignificanceSimple mean_a mean_b n_a n_b std_a std_b).pEst =
      max 0.01 (1 / (1 + |mean_a - mean_b| / standardErrorAB n_a n_b std_a std_b)) ∧
    (calcSignificanceSimple mean_a mean_b n_a n_b std_a std_b).dof =
      (n_a : ℤ) + (n_b : ℤ) - 2 ∧
    pooledVariance 40 40 0.5 0.5 = 0.25 ∧
    0.1118 < standardErrorAB 40 40 0.5 0.5 ∧
    standardErrorAB 40 40 0.5 0.5 < 0.1119 ∧
    13.41 < (calcSignificanceSimple 4.5 3.0 40 40 0.5 0.5).tStat ∧
    (calcSignificanceSimple 4.5 3.0 40 40 0.5 0.5).tStat < 13.42 ∧
    (calcSignificanceSimple 4.5 3.0 40 40 0.5 0.5).sigProp := by
  have hs2 : Real.sqrt 0.0125 ^ 2 = 0.0125 := Real.sq_sqrt (by norm_num)
  have hspos : (0 : ℝ) < Real.sqrt 0.0125 := Real.sqrt_pos.mpr (by norm_num)
  have hsu : Real.sqrt 0.0125 < 0.111804 := by
    nlinarith [hs2, hspos, sq_nonneg (Real.sqrt 0.0125 - 0.111804)]
  have hsl : (0.1118 : ℝ) < Real.sqrt 0.0125 := by
    nlinarith [hs2, hspos, hsu]
  have habs : |(4.5 : ℝ) - 3.0| = 1.5 := by
    rw [show (4.5 : ℝ) - 3.0 = 1.5 by norm_num]
    rw [abs_of_pos (by norm_num)]
  have htc : (calcSignificanceSimple 4.5 3.0 40 40 0.5 0.5).tStat =
      1.5 / Real.sqrt 0.0125 := by
    rw [calcSig_eq, if_neg standardErrorAB_concrete_ne]
    show |(4.5 : ℝ) - 3.0| / standardErrorAB 40 40 0.5 0.5 = 1.5 / Real.sqrt 0.0125
    rw [habs, standardErrorAB_concrete]
  have htl : (13.41 : ℝ) < 1.5 / Real.sqrt 0.0125 := by
    rw [lt_div_iff hspos]
    nlinarith [hsu]
  have htu : 1.5 / Real.sqrt 0.0125 < 13.42 := by
    rw [div_lt_iff hspos]
    nlinarith [hsl]
  refine ⟨?_, ?_, ?_, ?_, pooledVariance_concrete, ?_, ?_, ?_, ?_, ?_⟩
  · rw [calcSig_eq, if_neg hse]; rfl
  · rw [calcSig_eq, if_neg hse]; exact Iff.rfl
  · rw [calcSig_eq, if_neg hse]; rfl
  · rw [calcSig_eq, if_neg hse]; rfl
  · rw [standardErrorAB_concrete]; exact hsl
  · rw [standardErrorAB_concrete]; linarith [hsu]
  · rw [htc]; exact htl
  · rw [htc]; exact htu
  · rw [calcSig_eq, if_neg standardErrorAB_concrete_ne]
    show |(4.5 : ℝ) - 3.0| / standardErrorAB 40 40 0.5 0.5 >
      (if ((40 : ℤ) + (40 : ℤ) - 2) > 30 then (2.0 : ℝ) else 2.5)
    rw [if_pos (by norm_num), habs, standardErrorAB_concrete]
    calc (2.0 : ℝ) < 13.41 := by norm_num
      _ < 1.5 / Real.sqrt 0.0125 := htl

/-- C8 witness: the theorem applied at the spec's concrete example; the
A/B comparison of group A (mean 4.5, n 40, stdev 0.5) versus group B
(mean 3.0, n 40, stdev 0.5) is significant. -/
theorem ab_significance_witness :
    (calcSignificanceSimple 4.5 3.0 40 40 0.5 0.5).sigProp :=
  (ab_significance 4.5 3.0 0.5 0.5 40 40 (by norm_num) (by norm_num)
    (by norm_num) standardErrorAB_concrete_ne).2.2.2.2.2.2.2.2.2
